import Mathlib

/-!
Shallow embedding of `MilkCheck/Engine/Action.py` (classes
`MilkCheckEventHandler`, `ActionEventHandler`, `Action`).

The Python code is event-driven and mutates `self`; here every handler is a
pure function from an explicit `ActionState` to a new state together with the
observable effects of that single call: the callback-bus notifications it
emits (`Event`) and the calls it makes into its collaborators (`Command`):
the action manager (`perform_action`, `perform_delayed_action`,
`remove_task`), the dependency targets (`prepare_dep`) and the parent
service (`parent_update_status`).  Python `assert` failures are modelled by
returning `none`.  `datetime.now()` is modelled by threading an explicit
`now : Nat` timestamp.

`BaseEntity`, the callback bus and the action manager are not part of the
source tree; the few `BaseEntity` facts the `Action` code needs
(`eval_deps_status`, `search_deps`, the status part of `reset`, and the
`skipped()` / `is_ready()` predicates, the latter two carried as input
flags) are modelled from the spec and marked as such.
-/

namespace MilkCheck

/-- The status symbols imported from `MilkCheck.Engine.BaseEntity`. -/
inductive Status where
  | NO_STATUS
  | WAITING_STATUS
  | DONE
  | SKIPPED
  | WARNING
  | ERROR
  | TIMEOUT
  | DEP_ERROR
  | MISSING
  deriving DecidableEq, Repr

/-- The callback-bus notifications from `MilkCheck.Callback`. -/
inductive Event where
  | EV_STARTED
  | EV_COMPLETE
  | EV_STATUS_CHANGED
  | EV_TRIGGER_DEP (child : String)
  deriving DecidableEq, Repr

/-- A call made by the Action code into one of its collaborators. -/
inductive Command where
  | perform_action
  | perform_delayed_action
  | remove_task
  | prepare_dep (name : String)
  | parent_update_status (s : Status)
  | parent_update_status_deps
  deriving DecidableEq, Repr

/-- Dependency strengths (`REQUIRE`, `REQUIRE_WEAK`, `CHECK`). -/
inductive DepStrength where
  | REQUIRE
  | REQUIRE_WEAK
  | CHECK
  deriving DecidableEq, Repr

/-- A parent dependency edge as seen from the Action: the remote target's
name, the edge strength and the remote target's current status. -/
structure ParentDep where
  name : String
  strength : DepStrength
  status : Status
  deriving DecidableEq, Repr

/-- A child dependency edge as seen from the Action: the remote target's
name and the value of its `is_ready()` predicate (a `BaseEntity` method not
under the source tree, carried here as an input flag). -/
structure ChildDep where
  name : String
  ready : Bool
  deriving DecidableEq, Repr

/-- The worker result attached to an Action by `ev_close`.  `popen` is the
local single-node `WorkerPopen`: one return code (`none` meaning timeout)
and the `did_timeout()` flag.  `distant` is a multi-node worker:
`iter_retcodes()` as a list of (return code, nodes) pairs and
`iter_keys_timeout()` as the list of timed-out nodes. -/
inductive Worker where
  | popen (retcode : Option Int) (timed_out : Bool)
  | distant (retcodes : List (Int × List String)) (keys_timeout : List String)
  deriving DecidableEq, Repr

/-- The mutable state of one `Action` instance relevant to its lifecycle:
`status` (from `BaseEntity`), `delay`, `_retry`, `_retry_backup`, `worker`,
`start_time`, `stop_time`; plus three inherited/contextual values the
methods read: the `errors` tolerance, `parent.simulate`, and the value of
the `skipped()` predicate. -/
structure ActionState where
  status : Status
  delay : Nat
  retry : Int
  retry_backup : Int
  worker : Option Worker
  start_time : Option Nat
  stop_time : Option Nat
  errors : Nat
  simulate : Bool
  skipped : Bool
  deriving DecidableEq, Repr

/-- `Action.__init__(name, target, command, timeout=-1, delay=0)`:
`_retry = 0`, `_retry_backup = -1`, no worker, no timing, no status yet
(`NO_STATUS` from `BaseEntity.__init__`). -/
def initAction (delay : Nat) (errors : Nat) (simulate : Bool) (skipped : Bool) :
    ActionState :=
  { status := Status.NO_STATUS
    delay := delay
    retry := 0
    retry_backup := -1
    worker := none
    start_time := none
    stop_time := none
    errors := errors
    simulate := simulate
    skipped := skipped }

/-- `Action.nb_timeout`: 1 for a `WorkerPopen` iff `did_timeout()`, else the
length of `iter_keys_timeout()`; 0 with no worker attached. -/
def nb_timeout (worker : Option Worker) : Nat :=
  match worker with
  | some (Worker.popen _ timed_out) => if timed_out then 1 else 0
  | some (Worker.distant _ keys_timeout) => keys_timeout.length
  | none => 0

/-- `Action.nb_errors`: for a `WorkerPopen`, 1 iff the retcode is neither
`None` (timeout) nor 0; otherwise accumulate `len(nds)` over the
`iter_retcodes()` pairs with a non-zero retcode; 0 with no worker. -/
def nb_errors (worker : Option Worker) : Nat :=
  match worker with
  | some (Worker.popen retcode _) =>
      if retcode = none ∨ retcode = some 0 then 0 else 1
  | some (Worker.distant retcodes _) =>
      retcodes.foldl (fun acc p => if p.1 ≠ 0 then acc + p.2.length else acc) 0
  | none => 0

/-- `Action.set_retry` (the `retry` property setter):
`assert self.delay > 0`; `assert retry >= 0`; then `_retry = retry` and
`_retry_backup = retry` only if the backup is still the sentinel `-1`.
A failed assertion is `none`. -/
def set_retry (a : ActionState) (retry : Int) : Option ActionState :=
  if 0 < a.delay then
    if 0 ≤ retry then
      some { a with
              retry := retry
              retry_backup := if a.retry_backup = -1 then retry else a.retry_backup }
    else none
  else none

/-- `Action.reset`: clears `start_time`, `stop_time`, `worker` and restores
`_retry` from `_retry_backup`.  The `BaseEntity.reset(self)` call is
modelled from the spec (`BaseEntity` is not under the source tree): status
is reset to `NO_STATUS`. -/
def reset (a : ActionState) : ActionState :=
  { a with
     status := Status.NO_STATUS
     start_time := none
     stop_time := none
     worker := none
     retry := a.retry_backup }

/-- `Action.schedule(allow_delay=True)`: record `start_time` if unset; then
either hand the action to `perform_delayed_action` (when `delay > 0` and
delaying is allowed) or to `perform_action`. -/
def schedule (a : ActionState) (allow_delay : Bool) (now : Nat) :
    ActionState × List Command :=
  let a1 := if a.start_time = none then { a with start_time := some now } else a
  if 0 < a1.delay ∧ allow_delay = true then
    (a1, [Command.perform_delayed_action])
  else
    (a1, [Command.perform_action])

/-- Modelled from the spec (`BaseEntity.eval_deps_status` is not under the
source tree): reduce the parent dependencies to one status.  Any parent in
`WAITING_STATUS` gives `WAITING_STATUS`; else any `REQUIRE` parent in
`ERROR`/`TIMEOUT`/`DEP_ERROR` gives `DEP_ERROR`; else if every parent is
`DONE`/`SKIPPED`/`WARNING` the result is `DONE`; else `NO_STATUS`. -/
def eval_deps_status (parents : List ParentDep) : Status :=
  if parents.any (fun p => p.status == Status.WAITING_STATUS) then
    Status.WAITING_STATUS
  else if parents.any (fun p =>
      p.strength == DepStrength.REQUIRE &&
      (p.status == Status.ERROR || p.status == Status.TIMEOUT ||
       p.status == Status.DEP_ERROR)) then
    Status.DEP_ERROR
  else if parents.all (fun p =>
      p.status == Status.DONE || p.status == Status.SKIPPED ||
      p.status == Status.WARNING) then
    Status.DONE
  else
    Status.NO_STATUS

/-- Modelled from the spec (`BaseEntity.search_deps` is not under the source
tree): the parent dependencies whose remote endpoint status is in the given
list. -/
def search_deps (parents : List ParentDep) (statuses : List Status) :
    List ParentDep :=
  parents.filter (fun p => statuses.contains p.status)

/-- `Action.update_status(status)`: assert the status is a legal action
status; assign it; notify `EV_STATUS_CHANGED`; if the new status is
terminal (not `NO_STATUS`/`WAITING_STATUS`): notify `EV_COMPLETE` unless
`parent.simulate`; then, if there are children, for each ready child notify
`EV_TRIGGER_DEP` (unless `parent.simulate`) and call its `prepare()`;
with no children, call `parent.update_status(self.status)`. -/
def update_status (a : ActionState) (children : List ChildDep) (s : Status) :
    Option (ActionState × List Event × List Command) :=
  if s = Status.NO_STATUS ∨ s = Status.WAITING_STATUS ∨ s = Status.DONE ∨
      s = Status.SKIPPED ∨ s = Status.ERROR ∨ s = Status.TIMEOUT then
    let a1 := { a with status := s }
    if s = Status.NO_STATUS ∨ s = Status.WAITING_STATUS then
      some (a1, [Event.EV_STATUS_CHANGED], [])
    else
      let complete := if a.simulate then [] else [Event.EV_COMPLETE]
      if children.isEmpty then
        some (a1, Event.EV_STATUS_CHANGED :: complete,
              [Command.parent_update_status s])
      else
        let ready := children.filter (fun d => d.ready)
        let trig :=
          if a.simulate then [] else ready.map (fun d => Event.EV_TRIGGER_DEP d.name)
        some (a1, Event.EV_STATUS_CHANGED :: complete ++ trig,
              ready.map (fun d => Command.prepare_dep d.name))
  else none

/-- `Action.prepare`: when the action still has `NO_STATUS` and no parent
dependency is running: a skipped action becomes `SKIPPED`; on `DEP_ERROR`
— or with no parents at all — it becomes `WAITING_STATUS` and is scheduled;
on `DONE` it becomes `DONE`; otherwise each parent dependency still in
`NO_STATUS` is prepared (a `prepare_dep` call).  In every other situation
the call does nothing. -/
def prepare (a : ActionState) (parents : List ParentDep)
    (children : List ChildDep) (now : Nat) :
    Option (ActionState × List Event × List Command) :=
  let ds := eval_deps_status parents
  if a.status = Status.NO_STATUS ∧ ds ≠ Status.WAITING_STATUS then
    if a.skipped then
      update_status a children Status.SKIPPED
    else if ds = Status.DEP_ERROR ∨ parents.isEmpty then
      match update_status a children Status.WAITING_STATUS with
      | some (a1, evs, cmds) =>
        let sc := schedule a1 true now
        some (sc.1, evs, cmds ++ sc.2)
      | none => none
    else if ds = Status.DONE then
      update_status a children Status.DONE
    else
      some (a, [],
        (search_deps parents [Status.NO_STATUS]).map
          (fun d => Command.prepare_dep d.name))
  else
    some (a, [], [])

/-- `MilkCheckEventHandler.ev_start`: notify `EV_STARTED` unless
`parent.simulate`. -/
def ev_start (a : ActionState) : List Event :=
  if a.simulate then [] else [Event.EV_STARTED]

/-- `MilkCheckEventHandler.ev_timer`: with `parent.simulate`, delegate
`parent.update_status(parent.eval_deps_status())`; otherwise re-enter
`schedule(allow_delay=False)`. -/
def ev_timer (a : ActionState) (now : Nat) : ActionState × List Command :=
  if a.simulate then
    (a, [Command.parent_update_status_deps])
  else
    schedule a false now

/-- `ActionEventHandler.ev_close`: set `stop_time`, ask the manager to
`remove_task`, attach the worker, count errors and timeouts, then apply the
decision table: a failed attempt with `retry > 0` decrements `retry`
(through the property setter and its assertions) and schedules again;
else `TIMEOUT` when more timeouts than the `errors` tolerance and no
errors; else `ERROR` when errors plus timeouts exceed the tolerance;
else `DONE`. -/
def ev_close (a : ActionState) (children : List ChildDep) (w : Worker)
    (now : Nat) : Option (ActionState × List Event × List Command) :=
  let a1 := { a with stop_time := some now, worker := some w }
  let errs := nb_errors a1.worker
  let touts := nb_timeout a1.worker
  if (0 < errs ∨ 0 < touts) ∧ 0 < a1.retry then
    match set_retry a1 (a1.retry - 1) with
    | some a2 =>
      let sc := schedule a2 true now
      some (sc.1, [], Command.remove_task :: sc.2)
    | none => none
  else if a1.errors < touts ∧ errs = 0 then
    match update_status a1 children Status.TIMEOUT with
    | some (a2, evs, cmds) => some (a2, evs, Command.remove_task :: cmds)
    | none => none
  else if a1.errors < errs + touts then
    match update_status a1 children Status.ERROR with
    | some (a2, evs, cmds) => some (a2, evs, Command.remove_task :: cmds)
    | none => none
  else
    match update_status a1 children Status.DONE with
    | some (a2, evs, cmds) => some (a2, evs, Command.remove_task :: cmds)
    | none => none

/-- A whole attempt sequence: fold `ev_close` over a list of
(worker result, completion time) pairs, keeping only the state. -/
def execAttempts (children : List ChildDep) (a : ActionState) :
    List (Worker × Nat) → Option ActionState
  | [] => some a
  | (w, t) :: rest =>
    match ev_close a children w t with
    | some (a1, _, _) => execAttempts children a1 rest
    | none => none

/-- A sequence of assignments through the `retry` property setter. -/
def applyRetries (a : ActionState) : List Int → Option ActionState
  | [] => some a
  | r :: rs =>
    match set_retry a r with
    | some a1 => applyRetries a1 rs
    | none => none

/-! ## Concrete fixtures used by witnesses and counterexamples -/

/-- A simulate-mode action with a delay of 2 seconds, a concrete input. -/
def actSim : ActionState := initAction 2 0 true false

/-- A concrete child-dependency list: one ready child, one not ready. -/
def chs : List ChildDep := [⟨"c1", true⟩, ⟨"c2", false⟩]

/-- An action with no delay, used as a concrete input. -/
def act_d0 : ActionState := initAction 0 0 false false

/-- An action with a delay of 2 seconds, used as a concrete input. -/
def act_d2 : ActionState := initAction 2 0 false false

/-- A worker result with a single non-zero retcode (one error). -/
def wErr : Worker := Worker.popen (some 1) false

/-- A mid-run action: delay 2, retry 2 (backed up), already started. -/
def act_run : ActionState :=
  { act_d2 with retry := 2, retry_backup := 2, start_time := some 4 }

/-- The state `ev_close` produces from `act_run` on `wErr` at time 9. -/
def act_run_after : ActionState :=
  { act_run with stop_time := some 9, worker := some wErr, retry := 1 }

/-- The state a single failed attempt at time 9 leaves `act_d0` in after
being scheduled at time 4 (used by the C4 witness). -/
def aWit : ActionState :=
  { act_d0 with
     status := Status.ERROR
     start_time := some 4
     stop_time := some 9
     worker := some (Worker.popen (some 1) false) }

/-! ## Helper lemmas -/

theorem nb_errors_foldl (rcs : List (Int × List String)) (n : Nat) :
    rcs.foldl (fun acc p => if p.1 ≠ 0 then acc + p.2.length else acc) n =
    n + ((rcs.filter (fun p => p.1 != 0)).map (fun p => p.2.length)).sum := by
  induction rcs generalizing n with
  | nil => simp
  | cons p rest ih =>
    rw [List.foldl_cons, ih]
    by_cases h : p.1 = 0
    · simp [h]
    · simp [h]
      omega

theorem update_status_eq (a : ActionState) (children : List ChildDep)
    (s : Status) (a1 : ActionState) (evs : List Event) (cmds : List Command)
    (h : update_status a children s = some (a1, evs, cmds)) :
    a1 = { a with status := s } ∧
    evs = Event.EV_STATUS_CHANGED ::
      (if s = Status.NO_STATUS ∨ s = Status.WAITING_STATUS then []
       else (if a.simulate then [] else [Event.EV_COMPLETE]) ++
            (if a.simulate ∨ children.isEmpty then []
             else (children.filter (fun d => d.ready)).map
                    (fun d => Event.EV_TRIGGER_DEP d.name))) ∧
    cmds = (if s = Status.NO_STATUS ∨ s = Status.WAITING_STATUS then []
            else if children.isEmpty then [Command.parent_update_status s]
            else (children.filter (fun d => d.ready)).map
                   (fun d => Command.prepare_dep d.name)) := by
  unfold update_status at h
  split_ifs at h <;> simp_all

theorem update_status_status (a : ActionState) (children : List ChildDep)
    (s : Status) (a1 : ActionState) (evs : List Event) (cmds : List Command)
    (h : update_status a children s = some (a1, evs, cmds)) : a1.status = s := by
  obtain ⟨h1, -, -⟩ := update_status_eq a children s a1 evs cmds h
  rw [h1]

theorem set_retry_some (a : ActionState) (r : Int) (a1 : ActionState)
    (h : set_retry a r = some a1) :
    a1 = { a with
            retry := r
            retry_backup := if a.retry_backup = -1 then r else a.retry_backup } := by
  unfold set_retry at h
  split_ifs at h <;> simp_all

theorem schedule_eq (a : ActionState) (ad : Bool) (now : Nat) :
    schedule a ad now =
      (if a.start_time = none then { a with start_time := some now } else a,
       if 0 < a.delay ∧ ad = true then [Command.perform_delayed_action]
       else [Command.perform_action]) := by
  unfold schedule
  split_ifs <;> simp_all

theorem schedule_fst_status (a : ActionState) (ad : Bool) (now : Nat) :
    (schedule a ad now).1.status = a.status := by
  rw [schedule_eq]
  split <;> simp

theorem schedule_fst_retry (a : ActionState) (ad : Bool) (now : Nat) :
    (schedule a ad now).1.retry = a.retry := by
  rw [schedule_eq]
  split <;> simp

theorem schedule_fst_backup (a : ActionState) (ad : Bool) (now : Nat) :
    (schedule a ad now).1.retry_backup = a.retry_backup := by
  rw [schedule_eq]
  split <;> simp

theorem schedule_fst_stop (a : ActionState) (ad : Bool) (now : Nat) :
    (schedule a ad now).1.stop_time = a.stop_time := by
  rw [schedule_eq]
  split <;> simp

theorem schedule_snd (a : ActionState) (ad : Bool) (now : Nat) :
    (schedule a ad now).2 = [Command.perform_action] ∨
    (schedule a ad now).2 = [Command.perform_delayed_action] := by
  rw [schedule_eq]
  dsimp only
  split
  · exact Or.inr rfl
  · exact Or.inl rfl

theorem schedule_start_kept (a : ActionState) (ad : Bool) (now s : Nat)
    (h : a.start_time = some s) :
    (schedule a ad now).1.start_time = some s := by
  rw [schedule_eq]
  simp [h]

theorem schedule_start_set (a : ActionState) (ad : Bool) (now : Nat)
    (h : a.start_time = none) :
    (schedule a ad now).1.start_time = some now := by
  rw [schedule_eq]
  simp [h]

theorem update_status_nonterminal (a : ActionState) (children : List ChildDep)
    (s : Status) (hs : s = Status.NO_STATUS ∨ s = Status.WAITING_STATUS) :
    update_status a children s =
      some ({ a with status := s }, [Event.EV_STATUS_CHANGED], []) := by
  unfold update_status
  rcases hs with h | h <;> subst h <;> simp

theorem update_status_isSome (a : ActionState) (children : List ChildDep)
    (s : Status)
    (hs : s ≠ Status.WARNING ∧ s ≠ Status.DEP_ERROR ∧ s ≠ Status.MISSING) :
    ∃ a1 evs cmds, update_status a children s = some (a1, evs, cmds) := by
  unfold update_status
  have hleg : s = Status.NO_STATUS ∨ s = Status.WAITING_STATUS ∨
      s = Status.DONE ∨ s = Status.SKIPPED ∨ s = Status.ERROR ∨
      s = Status.TIMEOUT := by
    cases s <;> simp_all
  rw [if_pos hleg]
  dsimp only
  split_ifs <;> exact ⟨_, _, _, rfl⟩

theorem update_status_no_sched (a : ActionState) (children : List ChildDep)
    (s : Status) (a1 : ActionState) (evs : List Event) (cmds : List Command)
    (h : update_status a children s = some (a1, evs, cmds)) :
    Command.perform_action ∉ cmds ∧ Command.perform_delayed_action ∉ cmds := by
  obtain ⟨-, -, hc⟩ := update_status_eq a children s a1 evs cmds h
  subst hc
  split_ifs <;> simp

theorem applyRetries_backup_kept (rs : List Int) (a a1 : ActionState)
    (hb : a.retry_backup ≠ -1)
    (h : applyRetries a rs = some a1) : a1.retry_backup = a.retry_backup := by
  induction rs generalizing a with
  | nil =>
    simp [applyRetries] at h
    subst h
    rfl
  | cons r rest ih =>
    unfold applyRetries at h
    split at h
    · rename_i a2 hsr
      have ha2 := set_retry_some _ _ _ hsr
      have hb2 : a2.retry_backup = a.retry_backup := by simp [ha2, if_neg hb]
      have hk := ih a2 (by rw [hb2]; exact hb) h
      rw [hk, hb2]
    · simp at h

theorem ev_close_start_stop (a : ActionState) (children : List ChildDep)
    (w : Worker) (t : Nat) (a1 : ActionState) (evs : List Event)
    (cmds : List Command) (s : Nat)
    (h : ev_close a children w t = some (a1, evs, cmds))
    (hs : a.start_time = some s) :
    a1.start_time = some s ∧ a1.stop_time = some t := by
  unfold ev_close at h
  dsimp only at h
  split_ifs at h with hc1 hc2 hc3
  · split at h
    · rename_i a2 hsr
      simp only [Option.some.injEq, Prod.mk.injEq] at h
      obtain ⟨h1, h2, h3⟩ := h
      subst h1
      have ha2 := set_retry_some _ _ _ hsr
      constructor
      · exact schedule_start_kept a2 true t s (by simp [ha2, hs])
      · rw [schedule_fst_stop]
        simp [ha2]
    · simp at h
  · split at h
    · rename_i a2 evs2 cmds2 hu
      simp only [Option.some.injEq, Prod.mk.injEq] at h
      obtain ⟨h1, h2, h3⟩ := h
      subst h1
      obtain ⟨he, -, -⟩ := update_status_eq _ _ _ _ _ _ hu
      subst he
      exact ⟨by simp [hs], by simp⟩
    · simp at h
  · split at h
    · rename_i a2 evs2 cmds2 hu
      simp only [Option.some.injEq, Prod.mk.injEq] at h
      obtain ⟨h1, h2, h3⟩ := h
      subst h1
      obtain ⟨he, -, -⟩ := update_status_eq _ _ _ _ _ _ hu
      subst he
      exact ⟨by simp [hs], by simp⟩
    · simp at h
  · split at h
    · rename_i a2 evs2 cmds2 hu
      simp only [Option.some.injEq, Prod.mk.injEq] at h
      obtain ⟨h1, h2, h3⟩ := h
      subst h1
      obtain ⟨he, -, -⟩ := update_status_eq _ _ _ _ _ _ hu
      subst he
      exact ⟨by simp [hs], by simp⟩
    · simp at h

theorem execAttempts_start_stop (children : List ChildDep)
    (attempts : List (Worker × Nat)) :
    ∀ (a a1 : ActionState) (s : Nat),
      a.start_time = some s →
      execAttempts children a attempts = some a1 →
      a1.start_time = some s ∧
      (∀ w t, attempts.getLast? = some (w, t) → a1.stop_time = some t) := by
  induction attempts with
  | nil =>
    intro a a1 s hs h
    simp [execAttempts] at h
    subst h
    exact ⟨hs, by simp⟩
  | cons p rest ih =>
    intro a a1 s hs h
    obtain ⟨w, t⟩ := p
    unfold execAttempts at h
    split at h
    · rename_i a2 evs2 cmds2 hev
      have hss := ev_close_start_stop a children w t a2 evs2 cmds2 s hev hs
      rcases rest with _ | ⟨q, rest2⟩
      · simp [execAttempts] at h
        subst h
        refine ⟨hss.1, ?_⟩
        intro w2 t2 hl
        simp at hl
        rw [hss.2, hl.2]
      · have hr := ih a2 a1 s hss.1 h
        refine ⟨hr.1, ?_⟩
        intro w2 t2 hl
        rw [List.getLast?_cons_cons] at hl
        exact hr.2 w2 t2 hl
    · simp at h

/-! ## Claims -/

/-- C1: when the worker completes an Action (`ev_close`), the outcome
follows the decision table in order: a failed attempt (errors or timeouts)
with `retry > 0` decrements `retry` and reschedules without any status
update; else `TIMEOUT` when the timeouts exceed the `errors` tolerance with
no errors; else `ERROR` when errors plus timeouts exceed the tolerance;
else `DONE`. -/
theorem claim_C1_close_decision_table
    (a : ActionState) (children : List ChildDep) (w : Worker) (now : Nat)
    (a1 : ActionState) (evs : List Event) (cmds : List Command)
    (h : ev_close a children w now = some (a1, evs, cmds)) :
    (((0 < nb_errors (some w) ∨ 0 < nb_timeout (some w)) ∧ 0 < a.retry) →
       a1.retry = a.retry - 1 ∧ a1.status = a.status ∧
       Event.EV_STATUS_CHANGED ∉ evs ∧
       (Command.perform_action ∈ cmds ∨ Command.perform_delayed_action ∈ cmds)) ∧
    (¬ ((0 < nb_errors (some w) ∨ 0 < nb_timeout (some w)) ∧ 0 < a.retry) →
      ((a.errors < nb_timeout (some w) ∧ nb_errors (some w) = 0) →
         a1.status = Status.TIMEOUT) ∧
      (¬ (a.errors < nb_timeout (some w) ∧ nb_errors (some w) = 0) →
        ((a.errors < nb_errors (some w) + nb_timeout (some w)) →
           a1.status = Status.ERROR) ∧
        (¬ (a.errors < nb_errors (some w) + nb_timeout (some w)) →
           a1.status = Status.DONE))) := by
  unfold ev_close at h
  dsimp only at h
  split_ifs at h with hc1 hc2 hc3
  · refine ⟨fun _ => ?_, fun hn => absurd hc1 hn⟩
    split at h
    · rename_i a2 hsr
      simp only [Option.some.injEq, Prod.mk.injEq] at h
      obtain ⟨h1, h2, h3⟩ := h
      have ha2 := set_retry_some _ _ _ hsr
      have hr : a2.retry = a.retry - 1 := by simp [ha2]
      have hst : a2.status = a.status := by simp [ha2]
      subst h1
      refine ⟨?_, ?_, ?_, ?_⟩
      · rw [schedule_fst_retry]
        exact hr
      · rw [schedule_fst_status]
        exact hst
      · rw [← h2]
        simp
      · rw [← h3]
        rcases schedule_snd a2 true now with hs | hs <;> rw [hs] <;> simp
    · simp at h
  · refine ⟨fun hcon => absurd hcon hc1,
            fun _ => ⟨fun _ => ?_, fun hn => absurd hc2 hn⟩⟩
    split at h
    · rename_i a2 evs2 cmds2 hu
      simp only [Option.some.injEq, Prod.mk.injEq] at h
      obtain ⟨h1, h2, h3⟩ := h
      subst h1
      exact update_status_status _ _ _ _ _ _ hu
    · simp at h
  · refine ⟨fun hcon => absurd hcon hc1,
            fun _ => ⟨fun hcon => absurd hcon hc2,
                      fun _ => ⟨fun _ => ?_, fun hn => absurd hc3 hn⟩⟩⟩
    split at h
    · rename_i a2 evs2 cmds2 hu
      simp only [Option.some.injEq, Prod.mk.injEq] at h
      obtain ⟨h1, h2, h3⟩ := h
      subst h1
      exact update_status_status _ _ _ _ _ _ hu
    · simp at h
  · refine ⟨fun hcon => absurd hcon hc1,
            fun _ => ⟨fun hcon => absurd hcon hc2,
                      fun _ => ⟨fun hcon => absurd hcon hc3, fun _ => ?_⟩⟩⟩
    split at h
    · rename_i a2 evs2 cmds2 hu
      simp only [Option.some.injEq, Prod.mk.injEq] at h
      obtain ⟨h1, h2, h3⟩ := h
      subst h1
      exact update_status_status _ _ _ _ _ _ hu
    · simp at h

/-- Witness for C1: a concrete failed attempt with `retry = 2` reschedules
with `retry = 1` and no status change. -/
theorem claim_C1_witness :
    (((0 < nb_errors (some wErr) ∨ 0 < nb_timeout (some wErr)) ∧
        0 < act_run.retry) →
       act_run_after.retry = act_run.retry - 1 ∧
       act_run_after.status = act_run.status ∧
       Event.EV_STATUS_CHANGED ∉ ([] : List Event) ∧
       (Command.perform_action ∈
          [Command.remove_task, Command.perform_delayed_action] ∨
        Command.perform_delayed_action ∈
          [Command.remove_task, Command.perform_delayed_action])) ∧
    (¬ ((0 < nb_errors (some wErr) ∨ 0 < nb_timeout (some wErr)) ∧
        0 < act_run.retry) →
      ((act_run.errors < nb_timeout (some wErr) ∧ nb_errors (some wErr) = 0) →
         act_run_after.status = Status.TIMEOUT) ∧
      (¬ (act_run.errors < nb_timeout (some wErr) ∧
          nb_errors (some wErr) = 0) →
        ((act_run.errors < nb_errors (some wErr) + nb_timeout (some wErr)) →
           act_run_after.status = Status.ERROR) ∧
        (¬ (act_run.errors < nb_errors (some wErr) + nb_timeout (some wErr)) →
           act_run_after.status = Status.DONE))) :=
  claim_C1_close_decision_table act_run [] wErr 9 act_run_after []
    [Command.remove_task, Command.perform_delayed_action] (by decide)

/-- C2: `nb_errors` is 0 with no worker attached; for a local `WorkerPopen`
it is 1 exactly when the retcode is neither `None` (timeout) nor 0; for a
multi-node worker it is the total number of nodes whose return code is
non-zero.  `nb_timeout` is 1 for a local worker exactly when its
`did_timeout()` flag is set, and otherwise the length of the worker's
timeout list. -/
theorem claim_C2_worker_error_timeout_counts (rc : Option Int) (dt : Bool)
    (rcs : List (Int × List String)) (keys : List String) :
    nb_errors none = 0 ∧ nb_timeout none = 0 ∧
    (nb_errors (some (Worker.popen rc dt)) = 1 ↔ rc ≠ none ∧ rc ≠ some 0) ∧
    nb_errors (some (Worker.distant rcs keys)) =
      ((rcs.filter (fun p => p.1 != 0)).map (fun p => p.2.length)).sum ∧
    (nb_timeout (some (Worker.popen rc dt)) = 1 ↔ dt = true) ∧
    nb_timeout (some (Worker.distant rcs keys)) = keys.length := by
  refine ⟨rfl, rfl, ?_, ?_, ?_, rfl⟩
  · constructor
    · intro h1
      by_cases h : rc = none ∨ rc = some 0
      · simp [nb_errors, h] at h1
      · exact ⟨fun hn => h (Or.inl hn), fun h0 => h (Or.inr h0)⟩
    · intro h2
      have h : ¬ (rc = none ∨ rc = some 0) := by
        rintro (h | h)
        · exact h2.1 h
        · exact h2.2 h
      simp [nb_errors, h]
  · simpa [nb_errors] using nb_errors_foldl rcs 0
  · cases dt <;> simp [nb_timeout]

/-- C3: assigning `retry > 0` with `delay = 0` trips the
`assert self.delay > 0`; assigning a negative retry trips
`assert retry >= 0`; with `delay > 0` and `retry ≥ 0` the assignment
succeeds (no assertion fires) and stores the value. -/
theorem claim_C3_set_retry_assertions (a : ActionState) (r : Int) :
    (a.delay = 0 → 0 < r → set_retry a r = none) ∧
    (r < 0 → set_retry a r = none) ∧
    (0 < a.delay → 0 ≤ r →
      ∃ a1, set_retry a r = some a1 ∧ a1.retry = r) := by
  refine ⟨?_, ?_, ?_⟩
  · intro hd _
    simp [set_retry, hd]
  · intro hr
    by_cases hd : 0 < a.delay
    · simp [set_retry, hd, show ¬ (0 ≤ r) by omega]
    · simp [set_retry, hd]
  · intro hd hr
    refine ⟨{ a with
               retry := r
               retry_backup := if a.retry_backup = -1 then r else a.retry_backup },
            ?_, rfl⟩
    simp [set_retry, hd, hr]

/-- C5: with `parent.simulate` set, `ev_start` notifies nothing and
`update_status` never notifies `EV_STARTED` or `EV_COMPLETE`; every
successful `update_status` call notifies `EV_STATUS_CHANGED`; and without
simulate, a terminal status (not `NO_STATUS`, not `WAITING_STATUS`)
notifies `EV_COMPLETE`. -/
theorem claim_C5_simulate_event_suppression
    (a : ActionState) (children : List ChildDep) (s : Status)
    (a1 : ActionState) (evs : List Event) (cmds : List Command)
    (h : update_status a children s = some (a1, evs, cmds)) :
    Event.EV_STATUS_CHANGED ∈ evs ∧
    (a.simulate = true →
      ev_start a = [] ∧ Event.EV_STARTED ∉ evs ∧ Event.EV_COMPLETE ∉ evs) ∧
    (a.simulate = false → s ≠ Status.NO_STATUS → s ≠ Status.WAITING_STATUS →
      Event.EV_COMPLETE ∈ evs) := by
  obtain ⟨ha, hevs, hcmds⟩ := update_status_eq a children s a1 evs cmds h
  subst hevs
  refine ⟨List.mem_cons_self _ _, ?_, ?_⟩
  · intro hsim
    refine ⟨by simp [ev_start, hsim], ?_, ?_⟩ <;> simp [hsim]
  · intro hsim h1 h2
    have hnt : ¬ (s = Status.NO_STATUS ∨ s = Status.WAITING_STATUS) := by
      tauto
    simp [hnt, hsim]

/-- C10: for a terminal status, in simulate mode `EV_TRIGGER_DEP` is
suppressed as well, while each ready child dependency is still prepared;
and with no children at all, the status is delegated to the parent
service's `update_status`. -/
theorem claim_C10_simulate_trigger_and_delegate
    (a : ActionState) (children : List ChildDep) (s : Status)
    (a1 : ActionState) (evs : List Event) (cmds : List Command)
    (h : update_status a children s = some (a1, evs, cmds))
    (h1 : s ≠ Status.NO_STATUS) (h2 : s ≠ Status.WAITING_STATUS) :
    (a.simulate = true → ∀ c, Event.EV_TRIGGER_DEP c ∉ evs) ∧
    (∀ d ∈ children, d.ready = true → Command.prepare_dep d.name ∈ cmds) ∧
    (children = [] → cmds = [Command.parent_update_status s]) := by
  obtain ⟨ha, hevs, hcmds⟩ := update_status_eq a children s a1 evs cmds h
  have hnt : ¬ (s = Status.NO_STATUS ∨ s = Status.WAITING_STATUS) := by
    tauto
  subst hevs
  subst hcmds
  refine ⟨?_, ?_, ?_⟩
  · intro hsim c
    simp [hsim]
  · intro d hd hready
    by_cases he : children.isEmpty
    · rw [List.isEmpty_iff] at he
      subst he
      simp at hd
    · rw [if_neg hnt, if_neg he]
      exact List.mem_map.2 ⟨d, List.mem_filter.2 ⟨hd, hready⟩, rfl⟩
  · intro hc
    subst hc
    simp [hnt]

/-- Witness for C5: the theorem applied to a simulate-mode action reaching
`DONE` with two children. -/
theorem claim_C5_witness :
    Event.EV_STATUS_CHANGED ∈ [Event.EV_STATUS_CHANGED] ∧
    (actSim.simulate = true →
      ev_start actSim = [] ∧
      Event.EV_STARTED ∉ [Event.EV_STATUS_CHANGED] ∧
      Event.EV_COMPLETE ∉ [Event.EV_STATUS_CHANGED]) ∧
    (actSim.simulate = false → Status.DONE ≠ Status.NO_STATUS →
      Status.DONE ≠ Status.WAITING_STATUS →
      Event.EV_COMPLETE ∈ [Event.EV_STATUS_CHANGED]) :=
  claim_C5_simulate_event_suppression actSim chs Status.DONE
    { actSim with status := Status.DONE } [Event.EV_STATUS_CHANGED]
    [Command.prepare_dep "c1"] rfl

/-- Witness for C10: the theorem applied to the same simulate-mode run. -/
theorem claim_C10_witness :
    (actSim.simulate = true →
      ∀ c, Event.EV_TRIGGER_DEP c ∉ [Event.EV_STATUS_CHANGED]) ∧
    (∀ d ∈ chs, d.ready = true →
      Command.prepare_dep d.name ∈ [Command.prepare_dep "c1"]) ∧
    (chs = [] →
      [Command.prepare_dep "c1"] = [Command.parent_update_status Status.DONE]) :=
  claim_C10_simulate_trigger_and_delegate actSim chs Status.DONE
    { actSim with status := Status.DONE } [Event.EV_STATUS_CHANGED]
    [Command.prepare_dep "c1"] rfl (by decide) (by decide)

/-- Witness for C3 at concrete inputs. -/
theorem claim_C3_witness :
    set_retry act_d0 5 = none ∧ set_retry act_d0 (-1) = none ∧
    ∃ a1, set_retry act_d2 4 = some a1 ∧ a1.retry = 4 :=
  ⟨(claim_C3_set_retry_assertions act_d0 5).1 rfl (by decide),
   (claim_C3_set_retry_assertions act_d0 (-1)).2.1 (by decide),
   (claim_C3_set_retry_assertions act_d2 4).2.2 (by decide) (by decide)⟩

/-- C4: `start_time` is set at the first scheduling attempt and never
overwritten across the attempts of the same Action instance; each
completing attempt (re)assigns `stop_time`; hence an executed Action ends
with `start_time ≤ stop_time` (times being non-decreasing). -/
theorem claim_C4_start_time_frame
    (a : ActionState) (children : List ChildDep) (t0 : Nat)
    (attempts : List (Worker × Nat)) (a1 : ActionState)
    (h0 : a.start_time = none)
    (hrun : execAttempts children (schedule a true t0).1 attempts = some a1)
    (hmono : ∀ p ∈ attempts, t0 ≤ p.2)
    (hne : attempts ≠ []) :
    (schedule a true t0).1.start_time = some t0 ∧
    a1.start_time = some t0 ∧
    ∃ ts, a1.stop_time = some ts ∧ t0 ≤ ts := by
  have hset := schedule_start_set a true t0 h0
  have hss := execAttempts_start_stop children attempts _ a1 t0 hset hrun
  refine ⟨hset, hss.1, ?_⟩
  have hsome : attempts.getLast?.isSome := by
    rw [List.getLast?_isSome]
    exact hne
  obtain ⟨⟨w, t⟩, hl⟩ := Option.isSome_iff_exists.1 hsome
  obtain ⟨hne2, heq⟩ := List.mem_getLast?_eq_getLast
    (show (w, t) ∈ attempts.getLast? from hl)
  refine ⟨t, hss.2 w t hl, hmono _ (heq ▸ List.getLast_mem hne2)⟩

/-- Witness for C4: a concrete single-attempt run scheduled at time 4 and
closed at time 9. -/
theorem claim_C4_witness :
    (schedule act_d0 true 4).1.start_time = some 4 ∧
    aWit.start_time = some 4 ∧
    ∃ ts, aWit.stop_time = some ts ∧ 4 ≤ ts :=
  claim_C4_start_time_frame act_d0 [] 4 [(Worker.popen (some 1) false, 9)]
    aWit rfl (by decide) (by decide) (by decide)

/-- C6: `prepare` is a guarded no-op: with a status other than `NO_STATUS`,
or with dependencies in `WAITING_STATUS`, it changes nothing and schedules
nothing; hence once a call has set a status, a second call has no further
effect. -/
theorem claim_C6_prepare_guard_idempotent
    (a : ActionState) (parents : List ParentDep) (children : List ChildDep)
    (now now2 : Nat) :
    ((a.status ≠ Status.NO_STATUS ∨
        eval_deps_status parents = Status.WAITING_STATUS) →
      prepare a parents children now = some (a, [], [])) ∧
    (∀ a1 evs cmds, prepare a parents children now = some (a1, evs, cmds) →
      a1.status ≠ Status.NO_STATUS →
      prepare a1 parents children now2 = some (a1, [], [])) := by
  constructor
  · intro hg
    unfold prepare
    dsimp only
    rw [if_neg (by tauto)]
  · intro a1 evs cmds h h1
    unfold prepare
    dsimp only
    rw [if_neg (by tauto)]

/-- Witness for C6: a second `prepare` after the first one set
`WAITING_STATUS` is a no-op. -/
theorem claim_C6_witness :
    prepare { act_d0 with status := Status.DONE } [] [] 3 =
      some ({ act_d0 with status := Status.DONE }, [], []) ∧
    prepare { act_d0 with
               status := Status.WAITING_STATUS
               start_time := some 3 } [] [] 7 =
      some ({ act_d0 with
               status := Status.WAITING_STATUS
               start_time := some 3 }, [], []) :=
  ⟨(claim_C6_prepare_guard_idempotent { act_d0 with status := Status.DONE }
      [] [] 3 0).1 (Or.inl (by decide)),
   (claim_C6_prepare_guard_idempotent act_d0 [] [] 3 7).2
     { act_d0 with status := Status.WAITING_STATUS, start_time := some 3 }
     [Event.EV_STATUS_CHANGED] [Command.perform_action] (by decide)
     (by decide)⟩

/-- C7 counterexample: an Action with no parent dependencies at all has
`eval_deps_status = DONE`, yet `prepare` puts it in `WAITING_STATUS` and
schedules it (`perform_action`), instead of setting `DONE` without
scheduling as the claim states. -/
theorem claim_C7_counterexample :
    eval_deps_status ([] : List ParentDep) = Status.DONE ∧
    act_d0.status = Status.NO_STATUS ∧ act_d0.skipped = false ∧
    prepare act_d0 [] [] 3 =
      some ({ act_d0 with
               status := Status.WAITING_STATUS
               start_time := some 3 },
            [Event.EV_STATUS_CHANGED], [Command.perform_action]) ∧
    Status.WAITING_STATUS ≠ Status.DONE := by
  refine ⟨rfl, rfl, rfl, rfl, by decide⟩

/-- C7 amended: for an unskipped Action in `NO_STATUS` whose dependencies
are not `WAITING_STATUS`: on `DEP_ERROR` — or when the Action has no
parent dependencies at all — `prepare` transitions to `WAITING_STATUS` and
schedules anyway; on `DONE` with at least one parent it sets `DONE`
without scheduling; otherwise it prepares each parent dependency still in
`NO_STATUS`. -/
theorem claim_C7_amended_prepare_cases
    (a : ActionState) (parents : List ParentDep) (children : List ChildDep)
    (now : Nat)
    (hst : a.status = Status.NO_STATUS)
    (hw : eval_deps_status parents ≠ Status.WAITING_STATUS)
    (hsk : a.skipped = false) :
    ((eval_deps_status parents = Status.DEP_ERROR ∨ parents = []) →
      ∃ a1 evs cmds, prepare a parents children now = some (a1, evs, cmds) ∧
        a1.status = Status.WAITING_STATUS ∧
        (Command.perform_action ∈ cmds ∨
         Command.perform_delayed_action ∈ cmds)) ∧
    (parents ≠ [] → eval_deps_status parents = Status.DONE →
      ∃ a1 evs cmds, prepare a parents children now = some (a1, evs, cmds) ∧
        a1.status = Status.DONE ∧
        Command.perform_action ∉ cmds ∧
        Command.perform_delayed_action ∉ cmds) ∧
    (parents ≠ [] → eval_deps_status parents ≠ Status.DEP_ERROR →
      eval_deps_status parents ≠ Status.DONE →
      prepare a parents children now =
        some (a, [],
          (search_deps parents [Status.NO_STATUS]).map
            (fun d => Command.prepare_dep d.name))) := by
  refine ⟨?_, ?_, ?_⟩
  · intro hde
    have hp : prepare a parents children now =
        some ((schedule { a with status := Status.WAITING_STATUS } true now).1,
              [Event.EV_STATUS_CHANGED],
              [] ++ (schedule { a with status := Status.WAITING_STATUS }
                       true now).2) := by
      unfold prepare
      dsimp only
      rw [if_pos ⟨hst, hw⟩, if_neg (by simp [hsk]),
          if_pos (by rcases hde with h | h
                     · exact Or.inl h
                     · exact Or.inr (by simp [h])),
          update_status_nonterminal a children Status.WAITING_STATUS
            (Or.inr rfl)]
    refine ⟨_, _, _, hp, ?_, ?_⟩
    · rw [schedule_fst_status]
    · rcases schedule_snd { a with status := Status.WAITING_STATUS }
        true now with hs | hs <;> rw [hs] <;> simp
  · intro hne hdone
    have hp : prepare a parents children now =
        update_status a children Status.DONE := by
      unfold prepare
      dsimp only
      rw [if_pos ⟨hst, hw⟩, if_neg (by simp [hsk]),
          if_neg (by rw [hdone]
                     simp [hne]),
          if_pos hdone]
    obtain ⟨a1, evs, cmds, hu⟩ :=
      update_status_isSome a children Status.DONE (by simp)
    have hns := update_status_no_sched a children Status.DONE a1 evs cmds hu
    exact ⟨a1, evs, cmds, hp.trans hu,
           update_status_status _ _ _ _ _ _ hu, hns.1, hns.2⟩
  · intro hne hde hdone
    unfold prepare
    dsimp only
    rw [if_pos ⟨hst, hw⟩, if_neg (by simp [hsk]),
        if_neg (by simp [hde, hne]), if_neg hdone]

/-- A parent dependency still in `NO_STATUS`, a concrete input. -/
def depNS : ParentDep := ⟨"p1", DepStrength.REQUIRE, Status.NO_STATUS⟩

/-- Witness for C7 amended: a failed `REQUIRE` parent leads to
`WAITING_STATUS` plus scheduling; a `NO_STATUS` parent leads to its
preparation. -/
theorem claim_C7_witness :
    (∃ a1 evs cmds,
      prepare act_d0 [⟨"p0", DepStrength.REQUIRE, Status.ERROR⟩] [] 3 =
        some (a1, evs, cmds) ∧
      a1.status = Status.WAITING_STATUS ∧
      (Command.perform_action ∈ cmds ∨
       Command.perform_delayed_action ∈ cmds)) ∧
    prepare act_d0 [depNS] [] 3 =
      some (act_d0, [],
        (search_deps [depNS] [Status.NO_STATUS]).map
          (fun d => Command.prepare_dep d.name)) :=
  ⟨(claim_C7_amended_prepare_cases act_d0
      [⟨"p0", DepStrength.REQUIRE, Status.ERROR⟩] [] 3 rfl (by decide)
      rfl).1 (Or.inl (by decide)),
   (claim_C7_amended_prepare_cases act_d0 [depNS] [] 3 rfl (by decide)
      rfl).2.2 (by decide) (by decide) (by decide)⟩

/-- C8 counterexample: in simulate mode the timer fire does not re-enter
`schedule(allow_delay=False)`: `ev_timer` delegates the dependency status
to the parent service instead, and the action is left untouched. -/
theorem claim_C8_counterexample :
    actSim.simulate = true ∧ 0 < actSim.delay ∧
    ev_timer actSim 5 = (actSim, [Command.parent_update_status_deps]) ∧
    schedule actSim false 5 =
      ({ actSim with start_time := some 5 }, [Command.perform_action]) ∧
    (actSim, [Command.parent_update_status_deps]) ≠
      ({ actSim with start_time := some 5 }, [Command.perform_action]) := by
  refine ⟨rfl, by decide, rfl, rfl, by decide⟩

/-- C8 amended: `schedule(allow_delay)` records `start_time` if unset,
enqueues a delayed action when `delay > 0 ∧ allow_delay`, and submits for
immediate execution otherwise; the timer fire re-enters
`schedule(allow_delay=False)` when the parent service is not simulating,
and in simulate mode delegates the dependency status to the parent service
instead. -/
theorem claim_C8_amended_schedule_and_timer
    (a : ActionState) (ad : Bool) (now : Nat) :
    (a.start_time = none → (schedule a ad now).1.start_time = some now) ∧
    (∀ s, a.start_time = some s →
      (schedule a ad now).1.start_time = some s) ∧
    (0 < a.delay ∧ ad = true →
      (schedule a ad now).2 = [Command.perform_delayed_action]) ∧
    (a.delay = 0 ∨ ad = false →
      (schedule a ad now).2 = [Command.perform_action]) ∧
    (a.simulate = false → ev_timer a now = schedule a false now) ∧
    (a.simulate = true →
      ev_timer a now = (a, [Command.parent_update_status_deps])) := by
  refine ⟨fun h => schedule_start_set a ad now h,
          fun s h => schedule_start_kept a ad now s h, ?_, ?_, ?_, ?_⟩
  · intro hc
    rw [schedule_eq]
    dsimp only
    rw [if_pos hc]
  · intro hc
    rw [schedule_eq]
    dsimp only
    rw [if_neg]
    rcases hc with h | h <;> simp [h]
  · intro h
    unfold ev_timer
    rw [if_neg (by simp [h])]
  · intro h
    unfold ev_timer
    rw [if_pos h]

/-- Witness for C8 amended at concrete inputs: a delayed schedule call
enqueues a timer, and a non-simulate timer fire re-enters schedule. -/
theorem claim_C8_witness :
    (schedule act_d2 true 9).2 = [Command.perform_delayed_action] ∧
    (schedule act_d2 false 9).2 = [Command.perform_action] ∧
    ev_timer act_run 9 = schedule act_run false 9 ∧
    ev_timer actSim 9 = (actSim, [Command.parent_update_status_deps]) :=
  ⟨(claim_C8_amended_schedule_and_timer act_d2 true 9).2.2.1
      ⟨by decide, rfl⟩,
   (claim_C8_amended_schedule_and_timer act_d2 false 9).2.2.2.1
      (Or.inr rfl),
   (claim_C8_amended_schedule_and_timer act_run false 9).2.2.2.2.1 rfl,
   (claim_C8_amended_schedule_and_timer actSim false 9).2.2.2.2.2 rfl⟩

/-- C9: `reset` clears status (to `NO_STATUS`), timing and worker, and
restores `retry` from `_retry_backup`; the backup is recorded only by the
first assignment ever made through the `retry` setter, so after any further
assignments `reset` still restores that first value. -/
theorem claim_C9_reset_restores_backup (a : ActionState) :
    ((reset a).status = Status.NO_STATUS ∧ (reset a).start_time = none ∧
     (reset a).stop_time = none ∧ (reset a).worker = none ∧
     (reset a).retry = a.retry_backup) ∧
    (∀ r rs a1, a.retry_backup = -1 →
       applyRetries a (r :: rs) = some a1 →
       a1.retry_backup = r ∧ (reset a1).retry = r) := by
  refine ⟨⟨rfl, rfl, rfl, rfl, rfl⟩, ?_⟩
  intro r rs a1 hb h
  unfold applyRetries at h
  split at h
  · rename_i a2 hsr
    have hr0 : 0 ≤ r := by
      unfold set_retry at hsr
      split_ifs at hsr with h1 h2
      · exact h2
    have ha2 := set_retry_some _ _ _ hsr
    have hb2 : a2.retry_backup = r := by simp [ha2, hb]
    have hk := applyRetries_backup_kept rs a2 a1
      (by rw [hb2]; omega) h
    constructor
    · rw [hk, hb2]
    · show a1.retry_backup = r
      rw [hk, hb2]
  · simp at h

/-- Witness for C9: the backup keeps the first assigned value 5 across a
later assignment of 2, and `reset` restores 5. -/
theorem claim_C9_witness :
    { act_d2 with retry := 2, retry_backup := 5 }.retry_backup = 5 ∧
    (reset { act_d2 with retry := 2, retry_backup := 5 }).retry = 5 :=
  (claim_C9_reset_restores_backup act_d2).2 5 [2]
    { act_d2 with retry := 2, retry_backup := 5 } rfl (by decide)

end MilkCheck
